import Mathlib

/-!
Verification development for the reactive-tools deployer (AuthenticExecution).

Shallow embedding of the parts of the source relevant to the claims:
bytes are lists of naturals, big-endian packing follows tools.py, the AEAD
primitives of crypto.py are uninterpreted function parameters (the code calls
an external crypto library and only the choice of suite, key and associated
data is at issue), stateful coroutines become pure functions threading the
mutated object, and a Bool parameter records whether the network send
completed or raised.
-/

namespace ReactiveTools

/-- Big-endian one-byte packing, tools.pack_int8 (struct.pack of B).
Exact for arguments below 256, which covers every use in the claims. -/
def pack_int8 (i : Nat) : List Nat := [i % 256]

/-- Big-endian two-byte packing, tools.pack_int16 (struct.pack of H).
Exact for arguments below 65536. -/
def pack_int16 (i : Nat) : List Nat := [i / 256 % 256, i % 256]

/-- Big-endian four-byte packing, tools.pack_int32 (struct.pack of I). -/
def pack_int32 (i : Nat) : List Nat :=
  [i / 16777216 % 256, i / 65536 % 256, i / 256 % 256, i % 256]

/-- crypto.py Encryption: AES = 0x0 (aes-gcm-128), SPONGENT = 0x1 (spongent-128). -/
inductive Encryption where
  | AES
  | SPONGENT
deriving DecidableEq, Repr

/-- The IntEnum value of an Encryption member. -/
def Encryption.toNat : Encryption → Nat
  | .AES => 0
  | .SPONGENT => 1

/-- crypto.py Encryption.get_key_size: 16 for both suites. -/
def Encryption.get_key_size : Encryption → Nat
  | .AES => 16
  | .SPONGENT => 16

/-- An AEAD encryption primitive: suite, key, associated data, plaintext to
ciphertext.  The source calls an external library (PyCryptodome or
libsancuscrypt); theorems quantify over the primitive. -/
abbrev EncFn := Encryption → List Nat → List Nat → List Nat → List Nat

/-- An AEAD decryption primitive: suite, key, associated data, ciphertext to
optional plaintext (none models the Error raised on a failed tag check). -/
abbrev DecFn := Encryption → List Nat → List Nat → List Nat → Option (List Nat)

/-- Entrypoint ids reserved by the module ABI.  The numeric values live in the
external reactivenet package (not part of this repository); the claims only
use them symbolically. -/
def ReactiveEntrypoint.SetKey : Nat := 0

/-- The Attest reserved entrypoint id (external reactivenet package). -/
def ReactiveEntrypoint.Attest : Nat := 1

/-- The Disable reserved entrypoint id (external reactivenet package). -/
def ReactiveEntrypoint.Disable : Nat := 2

/-- The module state the claims touch, from modules/base.py Module.__init__
plus the per-backend id and static default encryption.  The key is passed to
operations separately, mirroring the await of module.get_key(). -/
structure Module where
  name : String
  id : Nat
  nonce : Nat
  priority : Option Nat
  deployed : Bool
  attested : Bool
  default_encryption : Encryption
deriving DecidableEq, Repr

/-- The connection state the claims touch, from the deployment descriptor
fields used by nodes/base.py and cli.py (the Connection class file itself is
not under src; only the fields read by the code under verification appear). -/
structure Connection where
  id : Nat
  name : String
  nonce : Nat
  key : List Nat
  encryption : Encryption
  direct : Bool
  to_input : Option Nat
  to_handler : Option Nat
  from_module : Option Module
  to_module : Module
  established : Bool
deriving DecidableEq, Repr

/-- Result of one SetKey/Disable operation: the updated module, the payload
handed to _send_reactive_command, and whether the send raised. -/
structure OpResult where
  module : Module
  payload : List Nat
  raised : Bool
deriving DecidableEq, Repr

/-- Arguments of Node.set_key: connection id, resolved io index, the
encryption suite chosen for the connection, and the connection key. -/
structure SetKeyArgs where
  conn_id : Nat
  io_id : Nat
  encryption : Encryption
  connKey : List Nat
deriving DecidableEq, Repr

/-- SGXBase.set_key (nodes/sgx.py lines 30-59; inherited unchanged by
NativeNode in nodes/native.py).  The nonce counter is incremented before the
send is attempted, and the cipher is produced by Encryption.AES.encrypt with
the module key and the associated data, whatever suite was selected. -/
def sgx_set_key (enc : EncFn) (m : Module) (moduleKey : List Nat)
    (a : SetKeyArgs) (sendOk : Bool) : OpResult :=
  let nonce := m.nonce
  let m1 := { m with nonce := m.nonce + 1 }
  let ad := pack_int8 a.encryption.toNat ++ pack_int16 a.conn_id ++
    pack_int16 a.io_id ++ pack_int16 nonce
  let cipher := enc Encryption.AES moduleKey ad a.connKey
  let payload := pack_int16 m.id ++ pack_int16 ReactiveEntrypoint.SetKey ++
    ad ++ cipher
  { module := m1, payload := payload, raised := !sendOk }

/-- TrustZoneNode.set_key (nodes/trustzone.py lines 128-156).  Identical to
the SGX variant; the source writes encryption.AES.encrypt, and attribute
lookup of AES on an enum member yields the AES member, so the cipher again
always uses the AES suite. -/
def trustzone_set_key (enc : EncFn) (m : Module) (moduleKey : List Nat)
    (a : SetKeyArgs) (sendOk : Bool) : OpResult :=
  let nonce := m.nonce
  let m1 := { m with nonce := m.nonce + 1 }
  let ad := pack_int8 a.encryption.toNat ++ pack_int16 a.conn_id ++
    pack_int16 a.io_id ++ pack_int16 nonce
  let cipher := enc Encryption.AES moduleKey ad a.connKey
  let payload := pack_int16 m.id ++ pack_int16 ReactiveEntrypoint.SetKey ++
    ad ++ cipher
  { module := m1, payload := payload, raised := !sendOk }

/-- Node.disable_module (nodes/base.py lines 335-369).  The associated data is
the current nonce, the counter is incremented before the send, and the nonce
bytes are both associated data and plaintext, encrypted with the default
encryption of the module under the module key. -/
def disable_module (enc : EncFn) (m : Module) (moduleKey : List Nat)
    (sendOk : Bool) : OpResult :=
  let ad := pack_int16 m.nonce
  let m1 := { m with nonce := m.nonce + 1 }
  let cipher := enc m.default_encryption moduleKey ad ad
  let payload := pack_int16 m.id ++ pack_int16 ReactiveEntrypoint.Disable ++
    ad ++ cipher
  { module := m1, payload := payload, raised := !sendOk }

/-- One nonce-consuming operation on a module: a SetKey (with its arguments
and module key) or a Disable, each tagged with whether the send succeeded. -/
inductive KeyOp where
  | setKey (a : SetKeyArgs) (moduleKey : List Nat) (sendOk : Bool)
  | disable (moduleKey : List Nat) (sendOk : Bool)

/-- Dispatch one KeyOp on a module. -/
def runOp (enc : EncFn) (m : Module) : KeyOp → OpResult
  | .setKey a mk sendOk => sgx_set_key enc m mk a sendOk
  | .disable mk sendOk => disable_module enc m mk sendOk

/-- Run a sequence of SetKey/Disable operations, collecting the nonce each
command put into its associated data. -/
def runOps (enc : EncFn) (m : Module) : List KeyOp → Module × List Nat
  | [] => (m, [])
  | op :: ops =>
    let r := runOp enc m op
    let rest := runOps enc r.module ops
    (rest.1, m.nonce :: rest.2)

/-- The SetKey payload the spec describes: the cipher uses the AEAD suite
selected for the connection (the encryption argument). -/
def set_key_payload_spec (enc : EncFn) (m : Module) (moduleKey : List Nat)
    (a : SetKeyArgs) : List Nat :=
  let ad := pack_int8 a.encryption.toNat ++ pack_int16 a.conn_id ++
    pack_int16 a.io_id ++ pack_int16 m.nonce
  pack_int16 m.id ++ pack_int16 ReactiveEntrypoint.SetKey ++ ad ++
    enc a.encryption moduleKey ad a.connKey

/-- The SetKey payload with the cipher pinned to the AES suite, which is what
the code produces for every selected suite. -/
def set_key_payload_amended (enc : EncFn) (m : Module) (moduleKey : List Nat)
    (a : SetKeyArgs) : List Nat :=
  let ad := pack_int8 a.encryption.toNat ++ pack_int16 a.conn_id ++
    pack_int16 a.io_id ++ pack_int16 m.nonce
  pack_int16 m.id ++ pack_int16 ReactiveEntrypoint.SetKey ++ ad ++
    enc Encryption.AES moduleKey ad a.connKey

/-- Node.output (nodes/base.py lines 207-245): the payload of the
RemoteOutput command for a direct connection. -/
def node_output (enc : EncFn) (conn : Connection) (arg : Option (List Nat)) :
    List Nat :=
  let data := arg.getD []
  let cipher := enc conn.encryption conn.key (pack_int16 conn.nonce) data
  pack_int16 conn.to_module.id ++ pack_int16 conn.id ++ cipher

/-- Node.request (nodes/base.py lines 247-301): the payload of the
RemoteRequest command and the decryption of the response, whose associated
data is the nonce plus one. -/
def node_request (enc : EncFn) (dec : DecFn) (conn : Connection)
    (arg : Option (List Nat)) (resp : List Nat) :
    List Nat × Option (List Nat) :=
  let data := arg.getD []
  let cipher := enc conn.encryption conn.key (pack_int16 conn.nonce) data
  let payload := pack_int16 conn.to_module.id ++ pack_int16 conn.id ++ cipher
  (payload, dec conn.encryption conn.key (pack_int16 (conn.nonce + 1)) resp)

/-- cli._handle_output (cli.py lines 363-388): guards on direct and to_input,
runs Node.output, and increments the nonce by one only when the command
completed without raising. -/
def handle_output (enc : EncFn) (conn : Connection) (arg : Option (List Nat))
    (sendOk : Bool) : Except String Connection :=
  if !conn.direct then .error "Connection is not direct."
  else if conn.to_input.isNone then .error "Not a output-input connection"
  else if sendOk then .ok { conn with nonce := conn.nonce + 1 }
  else .error "Reactive command failed"

/-- cli._handle_request (cli.py lines 391-418): guards on direct and
to_handler, runs Node.request (whose response decryption can also raise), and
increments the nonce by two only when everything completed. -/
def handle_request (enc : EncFn) (dec : DecFn) (conn : Connection)
    (arg : Option (List Nat)) (resp : List Nat) (sendOk : Bool) :
    Except String Connection :=
  if !conn.direct then .error "Connection is not direct."
  else if conn.to_handler.isNone then .error "Not a request-handler connection"
  else if !sendOk then .error "Reactive command failed"
  else
    match (node_request enc dec conn arg resp).2 with
    | none => .error "Decryption failed"
    | some _ => .ok { conn with nonce := conn.nonce + 2 }

/-- Config.attest_async (config.py lines 201-218) on a module list: filter
the not yet attested modules, raise before attesting anything when one of
them is not deployed, otherwise attest each (setting the attested flag) and
record which modules an Attest interaction was run for. -/
def attest_async (mods : List Module) :
    Except String (List Module × List String) :=
  let toAttest := mods.filter (fun m => !m.attested)
  if toAttest.any (fun m => !m.deployed) then
    .error "One or more modules to attest are not deployed yet"
  else
    .ok (mods.map (fun m => if m.attested then m else { m with attested := true }),
      toAttest.map (fun m => m.name))

/-- The Python truthiness of the connect precondition test of one connection:
from_module present and not attested, or to_module not attested. -/
def bad_endpoint (c : Connection) : Bool :=
  (match c.from_module with
   | some m => !m.attested
   | none => false) || !c.to_module.attested

/-- Modelled from the spec: Connection.establish of the missing
connection.py, success path only — the connection ends up with
established set to True.  The precondition check under verification lives in
Config.connect_async below. -/
def establish_model (c : Connection) : Connection :=
  { c with established := true }

/-- Config.connect_async (config.py lines 223-243) on a connection list:
filter the not yet established connections, raise before establishing
anything when one of them has an unattested endpoint, otherwise establish
each and record which connections were established. -/
def connect_async (conns : List Connection) :
    Except String (List Connection × List String) :=
  let toConnect := conns.filter (fun c => !c.established)
  if toConnect.any bad_endpoint then
    .error "One or more modules to connect are not attested yet"
  else
    .ok (conns.map (fun c => if c.established then c else establish_model c),
      toConnect.map (fun c => c.name))

/-- The guard opening Config.update_async (config.py lines 273-275): raise
before any other action when the module is not deployed. -/
def update_async_pre (m : Module) : Except String Unit :=
  if !m.deployed then .error "Module is not deployed yet." else .ok ()

/-- Per-node deploy of one module (SGXNode.deploy nodes/sgx.py lines 103-127,
NativeNode.deploy nodes/native.py lines 35-54): return immediately when the
module is already deployed, otherwise send the Load command and set the
deployed flag.  The trace records the name of each module a Load was sent
for. -/
def deploy_module (m : Module) : Module × List String :=
  if m.deployed then (m, [])
  else ({ m with deployed := true }, [m.name])

/-- Sequentially deploy a list of modules, concatenating the traces. -/
def deploy_list : List Module → List Module × List String
  | [] => ([], [])
  | m :: ms =>
    let r := deploy_module m
    let rest := deploy_list ms
    (r.1 :: rest.1, r.2 ++ rest.2)

/-- The sort key used by Config.deploy_priority_modules; it is only applied
to modules whose priority is present. -/
def pKey (m : Module) : Nat := m.priority.getD 0

/-- Stable insertion into a list sorted ascending by priority. -/
def pInsert (m : Module) : List Module → List Module
  | [] => [m]
  | x :: xs => if pKey m ≤ pKey x then m :: x :: xs else x :: pInsert m xs

/-- Stable ascending sort by priority, the effect of the Python
list.sort(key) call in Config.deploy_priority_modules. -/
def pSort : List Module → List Module
  | [] => []
  | m :: ms => pInsert m (pSort ms)

/-- Config.deploy_priority_modules (config.py lines 148-155): take the
modules that carry a priority and are not yet deployed, sort them ascending
by priority (stably), and deploy them strictly sequentially.  Python mutates
the shared module objects; the state update is rendered positionally on the
full list. -/
def deploy_priority_modules (mods : List Module) : List Module × List String :=
  let priority_modules :=
    pSort (mods.filter (fun m => m.priority.isSome && !m.deployed))
  (mods.map (fun m =>
      if m.priority.isSome && !m.deployed then { m with deployed := true } else m),
    (deploy_list priority_modules).2)

/-- Config.deploy_async with no module name (config.py lines 157-187):
priority modules first, then the rest, sequentially when in_order and
otherwise as a fan-out over the not yet deployed modules (rendered with the
same per-module state effect; modules do not affect one another). -/
def deploy_async_all (in_order : Bool) (mods : List Module) :
    List Module × List String :=
  let r1 := deploy_priority_modules mods
  if in_order then
    let r2 := deploy_list r1.1
    (r2.1, r1.2 ++ r2.2)
  else
    (r1.1.map (fun m => (deploy_module m).1),
      r1.2 ++ ((r1.1.filter (fun m => !m.deployed)).map
        (fun m => (deploy_module m).2)).flatten)

/-- Config.get_module (config.py lines 40-45): first module with the name,
else an error. -/
def get_module : List Module → String → Except String Module
  | [], name => .error ("No module with name " ++ name)
  | m :: ms, name => if m.name = name then .ok m else get_module ms name

/-- Mark the first module carrying the name as deployed. -/
def deploy_first : List Module → String → List Module
  | [], _ => []
  | m :: ms, nm =>
    if m.name = nm then { m with deployed := true } :: ms
    else m :: deploy_first ms nm

/-- Config.deploy_async with a module name (config.py lines 157-166): look
the module up, raise when it is already deployed, otherwise build and deploy
exactly that module. -/
def deploy_async_named (mods : List Module) (nm : String) :
    Except String (List Module × List String) :=
  match get_module mods nm with
  | .error e => .error e
  | .ok m =>
    if m.deployed then .error ("Module " ++ nm ++ " already deployed")
    else .ok (deploy_first mods nm, [m.name])

/-- The loop body of evaluate_rules (config.py lines 449-465): each rule is a
name together with the outcome of eval on its expression, where none models
an exception (counted as a broken rule) and some b the truthiness of the
value.  Returns the names of the broken rules in order and the ok flag. -/
def eval_rules_loop : List (String × Option Bool) → List String × Bool
  | [] => ([], true)
  | (n, res) :: rs =>
    let result := res.getD false
    let rest := eval_rules_loop rs
    if result then rest else (n :: rest.1, false)

/-- evaluate_rules (config.py lines 449-465): evaluate every rule, log each
broken one, and raise a single Error exactly when some rule broke. -/
def evaluate_rules (rules : List (String × Option Bool)) :
    List String × Except String Unit :=
  let r := eval_rules_loop rules
  (r.1, if r.2 then .ok () else .error "Bad deployment descriptor")

/-- descriptor.py DescriptorType. -/
inductive DescriptorType where
  | JSON
  | YAML
deriving DecidableEq, Repr

/-- The enum member name used in the raise message of DescriptorType.dump. -/
def DescriptorType.typeName : DescriptorType → String
  | .JSON => "JSON"
  | .YAML => "YAML"

/-- DescriptorType.dump (descriptor.py lines 54-63): the file is opened, the
JSON branch writes when the type is JSON, the YAML branch writes when the
type is YAML, and then — since neither branch returns — the coroutine
unconditionally raises.  The result is the list of performed writes paired
with the raised error, if any. -/
def descriptor_dump {α : Type} (t : DescriptorType) (data : α) :
    List (DescriptorType × α) × Option String :=
  let writes1 := if t = DescriptorType.JSON then [(DescriptorType.JSON, data)] else []
  let writes2 := if t = DescriptorType.YAML then [(DescriptorType.YAML, data)] else []
  (writes1 ++ writes2, some ("dump not implemented for " ++ t.typeName))

/-- TrustZoneModule.__calculate_key (modules/trustzone.py lines 228-241): the
first 52 bytes of the built ta binary are read, the first 20 (the header) are
dropped, and the module key is the SHA-256 digest of node key concatenated
with that hash, truncated to the AES key size.  SHA-256 itself is an external
primitive and is a function parameter. -/
def calculate_key (sha256 : List Nat → List Nat) (nodeKey : List Nat)
    (binary : List Nat) : Except String (List Nat) :=
  let module_hash := (binary.take 52).drop 20
  let key_size := Encryption.AES.get_key_size
  if 32 < key_size then
    .error "SHA256 cannot compute digests with this length"
  else
    .ok ((sha256 (nodeKey ++ module_hash)).take key_size)

/-- The module-key formula as the spec words it: SHA-256 of node key
concatenated with H, truncated to 16 bytes, H being the 32-byte hash that
follows the 20-byte header of the ta binary. -/
def calculate_key_spec (sha256 : List Nat → List Nat) (nodeKey : List Nat)
    (binary : List Nat) : List Nat :=
  (sha256 (nodeKey ++ (binary.drop 20).take 32)).take 16

/-- A concrete AEAD encryption primitive used for witnesses and
counterexamples: it records the suite byte followed by key, associated data
and plaintext, so distinct suites give distinct ciphertexts. -/
def encEx : EncFn := fun suite key ad pt => suite.toNat :: (key ++ ad ++ pt)

/-- A concrete AEAD decryption primitive for witnesses: it returns the
ciphertext unchanged. -/
def decEx : DecFn := fun _ _ _ d => some d

/-- A concrete module for witnesses and counterexamples. -/
def m1ex : Module :=
  { name := "m1", id := 1, nonce := 0, priority := none, deployed := true,
    attested := true, default_encryption := .AES }

/-- Concrete SetKey arguments selecting the SPONGENT suite. -/
def aSpong : SetKeyArgs :=
  { conn_id := 3, io_id := 4, encryption := .SPONGENT, connKey := [9] }

/-- A concrete direct output-input connection for the C3 witness. -/
def connOutEx : Connection :=
  { id := 3, name := "c", nonce := 0, key := [7], encryption := .AES,
    direct := true, to_input := some 0, to_handler := none,
    from_module := none, to_module := m1ex, established := true }

/-- A concrete direct request-handler connection for the C3 witness. -/
def connReqEx : Connection :=
  { id := 4, name := "r", nonce := 0, key := [7], encryption := .AES,
    direct := true, to_input := none, to_handler := some 0,
    from_module := none, to_module := m1ex, established := true }

/-- Priority-2 module of scenario S4. -/
def mAex : Module :=
  { name := "mA", id := 1, nonce := 0, priority := some 2, deployed := false,
    attested := false, default_encryption := .AES }

/-- No-priority module of scenario S4. -/
def mBex : Module :=
  { name := "mB", id := 2, nonce := 0, priority := none, deployed := false,
    attested := false, default_encryption := .AES }

/-- Priority-1 module of scenario S4. -/
def mCex : Module :=
  { name := "mC", id := 3, nonce := 0, priority := some 1, deployed := false,
    attested := false, default_encryption := .AES }

/-! Helper lemmas. -/

/-- Unfolding lemma for runOps on a cons. -/
theorem runOps_cons (enc : EncFn) (m : Module) (op : KeyOp) (ops : List KeyOp) :
    runOps enc m (op :: ops)
      = ((runOps enc (runOp enc m op).module ops).1,
         m.nonce :: (runOps enc (runOp enc m op).module ops).2) := rfl

/-- Every SetKey/Disable operation advances the nonce counter by exactly one,
whether or not the send succeeded. -/
theorem runOp_nonce (enc : EncFn) (m : Module) (op : KeyOp) :
    (runOp enc m op).module.nonce = m.nonce + 1 := by
  cases op <;> simp [runOp, sgx_set_key, disable_module]

/-- The nonce trajectory of a sequence of SetKey/Disable operations: the ith
command carries nonce start + i, and the final counter is start + count. -/
theorem runOps_nonces (enc : EncFn) (ops : List KeyOp) :
    ∀ m : Module,
      (runOps enc m ops).2 = (List.range ops.length).map (fun i => m.nonce + i)
      ∧ (runOps enc m ops).1.nonce = m.nonce + ops.length := by
  induction ops with
  | nil => intro m; simp [runOps]
  | cons op ops ih =>
    intro m
    have h := ih (runOp enc m op).module
    rw [runOp_nonce] at h
    rw [runOps_cons]
    refine ⟨?_, by rw [h.2]; simp; omega⟩
    rw [h.1, List.length_cons, List.range_succ_eq_map, List.map_cons,
      List.map_map]
    refine congrArg₂ _ (by omega) ?_
    apply List.map_congr_left
    intro i _
    simp [Function.comp]
    omega

/-! Theorems for the claims. -/

/-- C1: for every module and SetKey/Disable sequence, the nonces placed in
the associated data are strictly increasing (the ith command uses
start + i), and the counter advances by one per operation — including an
operation whose send fails, since the increment happens before the send. -/
theorem C1_nonce_monotonic (enc : EncFn) (m : Module) (ops : List KeyOp) :
    (runOps enc m ops).2 = (List.range ops.length).map (fun i => m.nonce + i)
    ∧ List.Pairwise (· < ·) (runOps enc m ops).2
    ∧ (runOps enc m ops).1.nonce = m.nonce + ops.length
    ∧ ∀ (mk : List Nat) (a : SetKeyArgs),
        (sgx_set_key enc m mk a false).module.nonce = m.nonce + 1
        ∧ (trustzone_set_key enc m mk a false).module.nonce = m.nonce + 1
        ∧ (disable_module enc m mk false).module.nonce = m.nonce + 1 := by
  refine ⟨(runOps_nonces enc ops m).1, ?_, (runOps_nonces enc ops m).2,
    fun mk a => ⟨rfl, rfl, rfl⟩⟩
  rw [(runOps_nonces enc ops m).1]
  exact List.Pairwise.map _ (fun a b h => Nat.add_lt_add_left h m.nonce)
    (List.pairwise_lt_range ops.length)

/-- C1 counterexample: a SetKey whose send fails still increments the
in-memory nonce counter (from 0 to 1 here), refuting the clause that a failed
send leaves the counter unchanged. -/
theorem C1_counterexample :
    m1ex.nonce = 0
    ∧ (sgx_set_key encEx m1ex [5] aSpong false).raised = true
    ∧ (sgx_set_key encEx m1ex [5] aSpong false).module.nonce = 1 :=
  ⟨rfl, rfl, rfl⟩

/-- C2 (amended): the SetKey payload is module id, SetKey entrypoint id, AD,
then the connection key encrypted with the AES suite — regardless of the
suite selected for the connection — under the module key with AD as
associated data, for the SGX/Native implementation and the TrustZone one
alike; when the selected suite is AES this coincides with the layout the
claim states. -/
theorem C2_setkey_payload (enc : EncFn) (m : Module) (mk : List Nat)
    (a : SetKeyArgs) (s : Bool) :
    (sgx_set_key enc m mk a s).payload = set_key_payload_amended enc m mk a
    ∧ (trustzone_set_key enc m mk a s).payload
        = set_key_payload_amended enc m mk a
    ∧ (sgx_set_key enc m mk ⟨a.conn_id, a.io_id, Encryption.AES, a.connKey⟩ s).payload
        = set_key_payload_spec enc m mk ⟨a.conn_id, a.io_id, Encryption.AES, a.connKey⟩ :=
  ⟨rfl, rfl, rfl⟩

/-- C2 counterexample: for a connection whose selected suite is SPONGENT, the
payload the code sends differs from the payload the claim describes (the
cipher is produced with the AES suite, not the selected one), witnessed by an
encryption primitive that records the suite. -/
theorem C2_counterexample :
    (sgx_set_key encEx m1ex [5] aSpong true).payload
      ≠ set_key_payload_spec encEx m1ex [5] aSpong := by decide

/-- C7: for both descriptor formats, DescriptorType.dump writes the
serialized data to the file but then unconditionally raises, because neither
format branch returns; the claim expects a normal return. -/
theorem C7_dump_always_raises {α : Type} (t : DescriptorType) (data : α) :
    (descriptor_dump t data).1 = [(t, data)]
    ∧ (descriptor_dump t data).2
        = some ("dump not implemented for " ++ t.typeName) := by
  cases t <;> exact ⟨rfl, rfl⟩

/-- C8: the TrustZone module key is SHA-256 of node key concatenated with
bytes 20..52 of the built ta binary, truncated to 16 bytes, matching the
formula of the spec; the extracted hash is 32 bytes long. -/
theorem C8_trustzone_module_key (sha256 : List Nat → List Nat)
    (nodeKey binary : List Nat) (h : 52 ≤ binary.length) :
    calculate_key sha256 nodeKey binary
      = .ok (calculate_key_spec sha256 nodeKey binary)
    ∧ ((binary.take 52).drop 20).length = 32 := by
  constructor
  · simp only [calculate_key, calculate_key_spec, Encryption.get_key_size]
    rw [List.drop_take]
    norm_num
  · rw [List.length_drop, List.length_take]; omega

/-- C8 witness at a concrete 52-byte binary. -/
theorem C8_witness :
    52 ≤ (List.replicate 52 (0 : Nat)).length
    ∧ (calculate_key id [] (List.replicate 52 0)
        = .ok (calculate_key_spec id [] (List.replicate 52 0))
      ∧ (((List.replicate 52 (0 : Nat)).take 52).drop 20).length = 32) :=
  ⟨by simp, C8_trustzone_module_key id [] (List.replicate 52 0) (by simp)⟩

/-- The broken-rule log of the evaluate_rules loop is exactly the names of
the rules whose outcome is not truthy. -/
theorem eval_rules_loop_fst (rules : List (String × Option Bool)) :
    (eval_rules_loop rules).1
      = (rules.filter (fun r => !(r.2.getD false))).map (fun r => r.1) := by
  induction rules with
  | nil => rfl
  | cons r rs ih =>
    obtain ⟨n, res⟩ := r
    by_cases h : res.getD false
    · simp [eval_rules_loop, h, ih]
    · simp only [Bool.not_eq_true] at h
      simp [eval_rules_loop, h, ih]

/-- The ok flag of the evaluate_rules loop is the conjunction of the rule
outcomes. -/
theorem eval_rules_loop_snd (rules : List (String × Option Bool)) :
    (eval_rules_loop rules).2 = rules.all (fun r => r.2.getD false) := by
  induction rules with
  | nil => rfl
  | cons r rs ih =>
    obtain ⟨n, res⟩ := r
    by_cases h : res.getD false
    · simp [eval_rules_loop, h, ih]
    · simp only [Bool.not_eq_true] at h
      simp [eval_rules_loop, h, ih]

/-- C10: evaluate_rules logs every broken rule (a rule whose evaluation
raised counts as broken), and raises the single Error exactly when at least
one rule was broken, returning normally otherwise. -/
theorem C10_evaluate_rules (rules : List (String × Option Bool)) :
    (evaluate_rules rules).1
      = (rules.filter (fun r => !(r.2.getD false))).map (fun r => r.1)
    ∧ ((evaluate_rules rules).2 = .error "Bad deployment descriptor"
        ↔ ∃ r ∈ rules, r.2.getD false = false)
    ∧ ((evaluate_rules rules).2 = .ok ()
        ↔ ∀ r ∈ rules, r.2.getD false = true) := by
  have hsnd : (evaluate_rules rules).2
      = (if rules.all (fun r => r.2.getD false) then Except.ok ()
         else .error "Bad deployment descriptor") := by
    simp only [evaluate_rules]
    rw [eval_rules_loop_snd]
  refine ⟨eval_rules_loop_fst rules, ?_, ?_⟩
  · by_cases h : rules.all (fun r => r.2.getD false) = true
    · rw [hsnd, if_pos h]
      rw [List.all_eq_true] at h
      constructor
      · intro hc; exact Except.noConfusion hc
      · rintro ⟨r, hr, hv⟩
        have := h r hr
        rw [hv] at this
        exact Bool.noConfusion this
    · rw [hsnd, if_neg h]
      rw [List.all_eq_true] at h
      push_neg at h
      constructor
      · intro _
        obtain ⟨r, hr, hv⟩ := h
        exact ⟨r, hr, by simpa using hv⟩
      · intro _; rfl
  · by_cases h : rules.all (fun r => r.2.getD false) = true
    · rw [hsnd, if_pos h]
      rw [List.all_eq_true] at h
      exact ⟨fun _ => h, fun _ => rfl⟩
    · rw [hsnd, if_neg h]
      rw [List.all_eq_true] at h
      constructor
      · intro hc; exact Except.noConfusion hc
      · intro hall; exact absurd hall h

/-- C3: a direct output encrypts the argument with the connection suite and
key using the 16-bit big-endian nonce as associated data and, only on
success, advances the nonce by one; a request encrypts with the nonce,
decrypts the response with nonce + 1, and on success advances the nonce by
two; with nonce 0 the associated data is the two zero bytes and an output
leaves the nonce at 1. -/
theorem C3_output_request_nonce (enc : EncFn) (dec : DecFn)
    (conn : Connection) (arg : Option (List Nat)) (resp pt : List Nat)
    (hdir : conn.direct = true) :
    node_output enc conn arg
      = pack_int16 conn.to_module.id ++ pack_int16 conn.id
        ++ enc conn.encryption conn.key (pack_int16 conn.nonce) (arg.getD [])
    ∧ (conn.to_input.isSome = true →
        handle_output enc conn arg true
            = .ok { conn with nonce := conn.nonce + 1 }
        ∧ handle_output enc conn arg false = .error "Reactive command failed")
    ∧ (node_request enc dec conn arg resp).1
        = pack_int16 conn.to_module.id ++ pack_int16 conn.id
          ++ enc conn.encryption conn.key (pack_int16 conn.nonce) (arg.getD [])
    ∧ (node_request enc dec conn arg resp).2
        = dec conn.encryption conn.key (pack_int16 (conn.nonce + 1)) resp
    ∧ (conn.to_handler.isSome = true →
        dec conn.encryption conn.key (pack_int16 (conn.nonce + 1)) resp
            = some pt →
        handle_request enc dec conn arg resp true
          = .ok { conn with nonce := conn.nonce + 2 })
    ∧ (conn.nonce = 0 → conn.to_input.isSome = true →
        node_output enc conn (some [1, 2, 3, 4])
          = pack_int16 conn.to_module.id ++ pack_int16 conn.id
            ++ enc conn.encryption conn.key [0, 0] [1, 2, 3, 4]
        ∧ handle_output enc conn (some [1, 2, 3, 4]) true
            = .ok { conn with nonce := 1 }) := by
  refine ⟨rfl, ?_, rfl, rfl, ?_, ?_⟩
  · intro hinp
    obtain ⟨vi, hvi⟩ := Option.isSome_iff_exists.mp hinp
    constructor <;> simp [handle_output, hdir, hvi]
  · intro hhan hdec
    obtain ⟨vh, hvh⟩ := Option.isSome_iff_exists.mp hhan
    simp [handle_request, hdir, hvh, node_request, hdec]
  · intro h0 hinp
    obtain ⟨vi, hvi⟩ := Option.isSome_iff_exists.mp hinp
    refine ⟨?_, ?_⟩
    · simp [node_output, h0, pack_int16]
    · simp [handle_output, hdir, hvi, h0]

/-- C3 witness on two concrete well-formed direct connections with nonce 0:
an output-input connection (to_handler absent) for the output half and a
request-handler connection (to_input absent) for the request half. -/
theorem C3_witness :
    connOutEx.direct = true
    ∧ connOutEx.to_input.isSome = true
    ∧ connReqEx.direct = true
    ∧ connReqEx.to_handler.isSome = true
    ∧ decEx connReqEx.encryption connReqEx.key
        (pack_int16 (connReqEx.nonce + 1)) [9] = some [9]
    ∧ handle_output encEx connOutEx (some [1, 2, 3, 4]) true
        = .ok { connOutEx with nonce := 1 }
    ∧ handle_request encEx decEx connReqEx (some [1, 2, 3, 4]) [9] true
        = .ok { connReqEx with nonce := 2 } := by
  have hout := C3_output_request_nonce encEx decEx connOutEx
    (some [1, 2, 3, 4]) [9] [9] rfl
  have hreq := C3_output_request_nonce encEx decEx connReqEx
    (some [1, 2, 3, 4]) [9] [9] rfl
  refine ⟨rfl, rfl, rfl, rfl, rfl, (hout.2.2.2.2.2 rfl rfl).2, ?_⟩
  have h2 := hreq.2.2.2.2.1 rfl rfl
  simpa using h2

/-- Unfolding the Python truthiness of the connect precondition test. -/
theorem bad_endpoint_iff (c : Connection) :
    bad_endpoint c = true
      ↔ ((∃ fm, c.from_module = some fm ∧ fm.attested = false)
         ∨ c.to_module.attested = false) := by
  cases hfm : c.from_module with
  | none => simp [bad_endpoint, hfm]
  | some m => simp [bad_endpoint, hfm]

/-- C4: attest raises exactly when some not-yet-attested module is not
deployed, connect raises exactly when some not-yet-established connection has
an unattested endpoint, and update raises exactly when the module is not
deployed; in each case the error is produced before the loop that would send
wire commands runs, so nothing is sent and no state is mutated (the error
branch carries no updated state). -/
theorem C4_precondition_errors (mods : List Module) (conns : List Connection)
    (m : Module) :
    (attest_async mods = .error "One or more modules to attest are not deployed yet"
      ↔ ∃ x ∈ mods, x.attested = false ∧ x.deployed = false)
    ∧ (connect_async conns = .error "One or more modules to connect are not attested yet"
      ↔ ∃ c ∈ conns, c.established = false
          ∧ ((∃ fm, c.from_module = some fm ∧ fm.attested = false)
             ∨ c.to_module.attested = false))
    ∧ (update_async_pre m = .error "Module is not deployed yet."
      ↔ m.deployed = false) := by
  refine ⟨?_, ?_, ?_⟩
  · by_cases h : (mods.filter (fun x => !x.attested)).any (fun x => !x.deployed) = true
    · simp only [attest_async]
      rw [if_pos h]
      constructor
      · intro _
        rw [List.any_eq_true] at h
        obtain ⟨x, hx, hd⟩ := h
        rw [List.mem_filter] at hx
        exact ⟨x, hx.1, by simpa using hx.2, by simpa using hd⟩
      · intro _; rfl
    · simp only [attest_async]
      rw [if_neg h]
      constructor
      · intro hc; exact Except.noConfusion hc
      · rintro ⟨x, hx, ha, hd⟩
        refine absurd ?_ h
        rw [List.any_eq_true]
        exact ⟨x, List.mem_filter.mpr ⟨hx, by simp [ha]⟩, by simp [hd]⟩
  · by_cases h : (conns.filter (fun c => !c.established)).any bad_endpoint = true
    · simp only [connect_async]
      rw [if_pos h]
      constructor
      · intro _
        rw [List.any_eq_true] at h
        obtain ⟨c, hc, hb⟩ := h
        rw [List.mem_filter] at hc
        exact ⟨c, hc.1, by simpa using hc.2, (bad_endpoint_iff c).mp hb⟩
      · intro _; rfl
    · simp only [connect_async]
      rw [if_neg h]
      constructor
      · intro hc; exact Except.noConfusion hc
      · rintro ⟨c, hc, he, hb⟩
        refine absurd ?_ h
        rw [List.any_eq_true]
        exact ⟨c, List.mem_filter.mpr ⟨hc, by simp [he]⟩,
          (bad_endpoint_iff c).mpr hb⟩
  · by_cases h : m.deployed <;> simp [update_async_pre, h]

/-- Inserting into a list permutes to consing. -/
theorem pInsert_perm (m : Module) (l : List Module) :
    (pInsert m l).Perm (m :: l) := by
  induction l with
  | nil => exact List.Perm.refl _
  | cons x xs ih =>
    by_cases h : pKey m ≤ pKey x
    · simp only [pInsert, if_pos h]
      exact List.Perm.refl _
    · simp only [pInsert, if_neg h]
      exact (ih.cons x).trans (List.Perm.swap m x xs)

/-- The stable sort permutes its input. -/
theorem pSort_perm (l : List Module) : (pSort l).Perm l := by
  induction l with
  | nil => exact List.Perm.refl _
  | cons m ms ih => exact (pInsert_perm m (pSort ms)).trans (ih.cons m)

/-- Insertion preserves being sorted ascending by priority. -/
theorem pInsert_pairwise (m : Module) (l : List Module)
    (h : List.Pairwise (fun a b => pKey a ≤ pKey b) l) :
    List.Pairwise (fun a b => pKey a ≤ pKey b) (pInsert m l) := by
  induction l with
  | nil => simp [pInsert]
  | cons x xs ih =>
    rcases List.pairwise_cons.mp h with ⟨hx, hxs⟩
    by_cases hle : pKey m ≤ pKey x
    · simp only [pInsert, if_pos hle]
      refine List.pairwise_cons.mpr ⟨?_, h⟩
      intro b hb
      rcases List.mem_cons.mp hb with rfl | hb
      · exact hle
      · exact le_trans hle (hx b hb)
    · simp only [pInsert, if_neg hle]
      refine List.pairwise_cons.mpr ⟨?_, ih hxs⟩
      intro b hb
      rcases List.mem_cons.mp ((pInsert_perm m xs).mem_iff.mp hb) with rfl | hb2
      · exact Nat.le_of_not_le hle
      · exact hx b hb2

/-- The stable sort is sorted ascending by priority. -/
theorem pSort_pairwise (l : List Module) :
    List.Pairwise (fun a b => pKey a ≤ pKey b) (pSort l) := by
  induction l with
  | nil => simp [pSort]
  | cons m ms ih => exact pInsert_pairwise m (pSort ms) ih

/-- Deploying an already deployed module is a no-op. -/
theorem deploy_module_of_deployed (m : Module) (h : m.deployed = true) :
    deploy_module m = (m, []) := by
  simp [deploy_module, h]

/-- After deploy_module the module carries the deployed flag. -/
theorem deploy_module_fst_deployed (m : Module) :
    ((deploy_module m).1).deployed = true := by
  by_cases h : m.deployed <;> simp [deploy_module, h]

/-- The state component of a sequential deploy is a per-module map. -/
theorem deploy_list_fst (l : List Module) :
    (deploy_list l).1 = l.map (fun m => (deploy_module m).1) := by
  induction l with
  | nil => rfl
  | cons m ms ih => simp [deploy_list, ih]

/-- The trace of a sequential deploy names exactly the modules that were not
yet deployed, in order. -/
theorem deploy_list_snd (l : List Module) :
    (deploy_list l).2
      = (l.filter (fun m => !m.deployed)).map (fun m => m.name) := by
  induction l with
  | nil => rfl
  | cons m ms ih =>
    by_cases h : m.deployed
    · simp [deploy_list, deploy_module, h, ih]
    · simp [deploy_list, deploy_module, h, ih]

/-- The priority phase deploys exactly the priority-sorted not-yet-deployed
priority modules, in sorted order. -/
theorem deploy_priority_modules_snd (mods : List Module) :
    (deploy_priority_modules mods).2
      = (pSort (mods.filter (fun m => m.priority.isSome && !m.deployed))).map
          (fun m => m.name) := by
  simp only [deploy_priority_modules]
  rw [deploy_list_snd]
  congr 1
  apply List.filter_eq_self.mpr
  intro a ha
  have hmem := (pSort_perm _).mem_iff.mp ha
  rw [List.mem_filter] at hmem
  have := hmem.2
  simp only [Bool.and_eq_true] at this
  exact this.2

/-- After the priority phase, the modules still lacking the deployed flag are
exactly the not-yet-deployed modules without a priority. -/
theorem filter_map_deploy (mods : List Module) :
    ((mods.map (fun m =>
        if m.priority.isSome && !m.deployed then { m with deployed := true }
        else m)).filter (fun m => !m.deployed)).map (fun m => m.name)
      = (mods.filter (fun m => !m.priority.isSome && !m.deployed)).map
          (fun m => m.name) := by
  rw [List.filter_map, List.map_map]
  have hpred : ((fun m => !m.deployed) ∘ (fun m : Module =>
      if m.priority.isSome && !m.deployed then { m with deployed := true }
      else m))
      = fun m => !m.priority.isSome && !m.deployed := by
    funext m
    cases hp : m.priority.isSome <;> cases hd : m.deployed <;>
      simp [Function.comp, hp, hd]
  rw [hpred]
  apply List.map_congr_left
  intro a _
  by_cases hc : a.priority.isSome && !a.deployed <;>
    simp [Function.comp, hc]

/-- Joining the singleton traces of a fan-out deploy over the undeployed
modules gives their names in order. -/
theorem flatten_deploy_trace (l : List Module) :
    ((l.filter (fun m => !m.deployed)).map (fun m => (deploy_module m).2)).flatten
      = (l.filter (fun m => !m.deployed)).map (fun m => m.name) := by
  induction l with
  | nil => rfl
  | cons m ms ih =>
    by_cases h : m.deployed
    · have hf : List.filter (fun m => !m.deployed) (m :: ms)
          = ms.filter (fun m => !m.deployed) := by simp [h]
      rw [hf]
      exact ih
    · have hf : List.filter (fun m => !m.deployed) (m :: ms)
          = m :: ms.filter (fun m => !m.deployed) := by simp [h]
      have htr : (deploy_module m).2 = [m.name] := by simp [deploy_module, h]
      rw [hf, List.map_cons, List.map_cons, List.flatten_cons, htr, ih]
      rfl

/-- The final state of a full deploy is the same per-module map for both the
sequential and the fan-out branch. -/
theorem deploy_async_all_fst (io : Bool) (mods : List Module) :
    (deploy_async_all io mods).1
      = ((deploy_priority_modules mods).1).map (fun m => (deploy_module m).1) := by
  cases io <;> simp [deploy_async_all, deploy_list_fst]

/-- The trace of a full deploy: the priority-sorted undeployed priority
modules first, then the undeployed modules without a priority in list order,
for both the sequential and the fan-out branch. -/
theorem deploy_async_all_snd (io : Bool) (mods : List Module) :
    (deploy_async_all io mods).2
      = (pSort (mods.filter (fun m => m.priority.isSome && !m.deployed))).map
          (fun m => m.name)
        ++ (mods.filter (fun m => !m.priority.isSome && !m.deployed)).map
            (fun m => m.name) := by
  cases io
  · simp only [deploy_async_all, Bool.false_eq_true, if_false]
    rw [deploy_priority_modules_snd, flatten_deploy_trace]
    congr 1
    exact filter_map_deploy mods
  · simp only [deploy_async_all, if_true]
    rw [deploy_priority_modules_snd, deploy_list_snd]
    congr 1
    exact filter_map_deploy mods

/-- Every module in the final state of a full deploy is deployed. -/
theorem deploy_async_all_deployed (io : Bool) (mods : List Module) :
    ∀ x ∈ (deploy_async_all io mods).1, x.deployed = true := by
  intro x hx
  rw [deploy_async_all_fst, List.mem_map] at hx
  obtain ⟨y, _, rfl⟩ := hx
  exact deploy_module_fst_deployed y

/-- The priority phase is the identity on a fully deployed state. -/
theorem deploy_priority_modules_of_deployed (l : List Module)
    (h : ∀ m ∈ l, m.deployed = true) :
    deploy_priority_modules l = (l, []) := by
  have h2 : l.filter (fun m => m.priority.isSome && !m.deployed) = [] := by
    apply List.filter_eq_nil_iff.mpr
    intro a ha
    simp [h a ha]
  have h1 : l.map (fun m =>
      if m.priority.isSome && !m.deployed then { m with deployed := true }
      else m) = l := by
    have := List.map_congr_left (l := l)
      (f := fun m =>
        if m.priority.isSome && !m.deployed then { m with deployed := true }
        else m)
      (g := id) (fun a ha => by simp [h a ha])
    simpa using this
  simp only [deploy_priority_modules, h2, h1]
  rfl

/-- Sequential deploy is the identity on a fully deployed state. -/
theorem deploy_list_of_deployed (l : List Module)
    (h : ∀ m ∈ l, m.deployed = true) :
    deploy_list l = (l, []) := by
  induction l with
  | nil => rfl
  | cons m ms ih =>
    have hm := h m (List.mem_cons_self m ms)
    have ih2 := ih (fun x hx => h x (List.mem_cons_of_mem m hx))
    simp [deploy_list, deploy_module_of_deployed m hm, ih2]

/-- C5: a deploy over all modules — in either mode, since the priority phase
is awaited before the in-order loop and before the fan-out alike — first
deploys the not-yet-deployed priority modules, stably sorted ascending by
priority, strictly sequentially, and only then the remaining modules without
a priority in descriptor order; in particular an in-order deploy of modules
mA(priority 2), mB, mC(priority 1) deploys them in the order mC, mA, mB. -/
theorem C5_priority_deploy_order (io : Bool) (mods : List Module) :
    (deploy_async_all io mods).2
      = (pSort (mods.filter (fun m => m.priority.isSome && !m.deployed))).map
          (fun m => m.name)
        ++ (mods.filter (fun m => !m.priority.isSome && !m.deployed)).map
            (fun m => m.name)
    ∧ List.Pairwise (fun a b => pKey a ≤ pKey b)
        (pSort (mods.filter (fun m => m.priority.isSome && !m.deployed)))
    ∧ (pSort (mods.filter (fun m => m.priority.isSome && !m.deployed))).Perm
        (mods.filter (fun m => m.priority.isSome && !m.deployed))
    ∧ (deploy_async_all true [mAex, mBex, mCex]).2 = ["mC", "mA", "mB"] := by
  refine ⟨deploy_async_all_snd io mods, pSort_pairwise _, pSort_perm _, ?_⟩
  decide

/-- C6: a second full deploy on the post-state of a full deploy changes no
module and sends no Load command (every module is filtered out or skipped by
the per-node deployed check), for both the sequential and the fan-out
variant. -/
theorem C6_deploy_idempotent (io : Bool) (mods : List Module) :
    deploy_async_all io ((deploy_async_all io mods).1)
      = ((deploy_async_all io mods).1, []) := by
  have hd := deploy_async_all_deployed io mods
  have h1 : ((deploy_async_all io mods).1).filter
      (fun m => m.priority.isSome && !m.deployed) = [] := by
    apply List.filter_eq_nil_iff.mpr
    intro a ha
    simp [hd a ha]
  have h2 : ((deploy_async_all io mods).1).filter
      (fun m => !m.priority.isSome && !m.deployed) = [] := by
    apply List.filter_eq_nil_iff.mpr
    intro a ha
    simp [hd a ha]
  have hmap : ((deploy_async_all io mods).1).map (fun m => (deploy_module m).1)
      = (deploy_async_all io mods).1 := by
    have := List.map_congr_left (l := (deploy_async_all io mods).1)
      (f := fun m => (deploy_module m).1) (g := id)
      (fun a ha => by
        show (deploy_module a).1 = a
        rw [deploy_module_of_deployed a (hd a ha)])
    simpa using this
  refine Prod.ext ?_ ?_
  · rw [deploy_async_all_fst,
      deploy_priority_modules_of_deployed _ hd]
    exact hmap
  · rw [deploy_async_all_snd, h1, h2]
    rfl

/-- C9: deploying a named module that is already deployed raises the already
deployed error and performs no action, while the bulk deploy only ever sends
Load for modules whose deployed flag was false (already deployed modules are
silently skipped). -/
theorem C9_named_deploy (mods : List Module) (nm : String) (m : Module)
    (hgm : get_module mods nm = .ok m) (hd : m.deployed = true) :
    deploy_async_named mods nm
      = .error ("Module " ++ nm ++ " already deployed")
    ∧ ∀ (io : Bool) (n : String), n ∈ (deploy_async_all io mods).2 →
        ∃ x ∈ mods, x.name = n ∧ x.deployed = false := by
  constructor
  · simp [deploy_async_named, hgm, hd]
  · intro io n hn
    rw [deploy_async_all_snd, List.mem_append] at hn
    rcases hn with hn | hn
    · rw [List.mem_map] at hn
      obtain ⟨x, hx, rfl⟩ := hn
      have hx2 := (pSort_perm _).mem_iff.mp hx
      rw [List.mem_filter] at hx2
      refine ⟨x, hx2.1, rfl, ?_⟩
      have := hx2.2
      simp only [Bool.and_eq_true] at this
      simpa using this.2
    · rw [List.mem_map] at hn
      obtain ⟨x, hx, rfl⟩ := hn
      rw [List.mem_filter] at hx
      refine ⟨x, hx.1, rfl, ?_⟩
      have := hx.2
      simp only [Bool.and_eq_true] at this
      simpa using this.2

/-- C9 witness on a one-module list whose module is already deployed. -/
theorem C9_witness :
    get_module [m1ex] "m1" = .ok m1ex
    ∧ m1ex.deployed = true
    ∧ (deploy_async_named [m1ex] "m1"
        = .error ("Module " ++ "m1" ++ " already deployed")
      ∧ ∀ (io : Bool) (n : String), n ∈ (deploy_async_all io [m1ex]).2 →
          ∃ x ∈ [m1ex], x.name = n ∧ x.deployed = false) := by
  refine ⟨?_, rfl, C9_named_deploy [m1ex] "m1" m1ex ?_ rfl⟩ <;>
    simp [get_module, m1ex]

end ReactiveTools
